import Mathlib

/-
  Verification development for the DREAM equation-system core
  (block-matrix layout, unknown-quantity registry, equation-term
  rebuild rules, Newton solve, and time-stepper construction).

  The C++ sources embedded here are the ones under src/:
  Settings/TimeStepper.cpp, Settings/Equations/T_cold.cpp, and the
  headers DREAM/Solver/Solver.hpp, FVM/Equation/DiagonalTerm.hpp,
  FVM/Equation/ScalarLinearTerm.hpp.  Implementation files that are
  not part of src/ (Solver.cpp, UnknownQuantityHandler.cpp,
  DiagonalTerm.cpp, ScalarLinearTerm.cpp, TimeStepperAdaptive.cpp,
  TimeStepperIonization.cpp, TimeStepperConstant.cpp) are modelled
  from the specification; each such definition says so in its doc
  comment.

  real_t (a C double) is embedded as ℚ: the claims treated here are
  about exact data-flow identities (buffers copied, caches left
  untouched, min/compare bounds, an exact one-step Newton solve),
  none of which involves rounding.
-/

set_option autoImplicit false

namespace DREAM

/-! ## Block-matrix layout (Solver::Initialize)

Solver.hpp declares `matrix_size` ("number of rows in any (jacobian)
matrix built by this solver (not counting unknowns which should not
appear in the matrix)") and `unknownToMatrixMapping` ("mapping from
EquationSystem unknown_quantity_id to index in the block matrix").
The body of Solver::Initialize is not in src/, so the offset
computation is modelled from the spec. -/

/-- An unknown quantity as registered with the registry: stable id,
degree-of-freedom count (multiples × per-multiple length), and the
trivial flag (a trivial unknown never contributes matrix rows). -/
structure UnknownQuantity where
  id : Nat
  numElements : Nat
  isTrivial : Bool
deriving DecidableEq, Repr

/-- The registration-ordered list of nontrivial unknowns: trivial
unknowns are skipped entirely, they contribute no rows. -/
def nontrivialUnknowns (us : List UnknownQuantity) : List UnknownQuantity :=
  us.filter (fun u => !u.isTrivial)

/-- One entry of the unknown-to-matrix lookup table:
(unknown id, block offset, block length). -/
structure BlockRange where
  uqtyId : Nat
  offset : Nat
  len : Nat
deriving DecidableEq, Repr

/-- Modelled from the spec: the body of Solver::Initialize is not in
src/.  "Given the ordered list of nontrivial unknowns, compute offsets
by running a prefix sum over their degree-of-freedom counts": each
unknown is assigned the running offset, which then advances by its
degree-of-freedom count. -/
def computeOffsets : List UnknownQuantity → Nat → List BlockRange
  | [], _ => []
  | u :: rest, off => ⟨u.id, off, u.numElements⟩ :: computeOffsets rest (off + u.numElements)

/-- The lookup table built at solver initialization: prefix-sum
offsets over the nontrivial unknowns, starting from 0. -/
def unknownToMatrixMapping (us : List UnknownQuantity) : List BlockRange :=
  computeOffsets (nontrivialUnknowns us) 0

/-- Modelled from the spec: matrix_size is the total number of rows,
the sum of the degree-of-freedom counts of the nontrivial unknowns. -/
def matrix_size (us : List UnknownQuantity) : Nat :=
  ((nontrivialUnknowns us).map (fun u => u.numElements)).sum

/-- Offsets produced by computeOffsets: the offset of the k-th entry is the
starting offset plus the sum of the preceding degree-of-freedom counts. -/
theorem computeOffsets_offset_eq (l : List UnknownQuantity) (off : Nat) (k : Nat)
    (hk : k < (computeOffsets l off).length) :
    ((computeOffsets l off).get ⟨k, hk⟩).offset
      = off + ((l.take k).map (fun u => u.numElements)).sum := by
  induction l generalizing off k with
  | nil => simp [computeOffsets] at hk
  | cons u rest ih =>
    cases k with
    | zero => simp [computeOffsets]
    | succ k =>
      have hk2 : k < (computeOffsets rest (off + u.numElements)).length := by
        simpa [computeOffsets] using hk
      have := ih (off + u.numElements) k hk2
      simpa [computeOffsets, List.get, Nat.add_assoc] using this

/-- Lengths recorded by computeOffsets are the own
degree-of-freedom counts, in order. -/
theorem computeOffsets_len_map (l : List UnknownQuantity) (off : Nat) :
    (computeOffsets l off).map (fun b => b.len) = l.map (fun u => u.numElements) := by
  induction l generalizing off with
  | nil => simp [computeOffsets]
  | cons u rest ih => simp [computeOffsets, ih]

/-- computeOffsets preserves the list length. -/
theorem computeOffsets_length (l : List UnknownQuantity) (off : Nat) :
    (computeOffsets l off).length = l.length := by
  induction l generalizing off with
  | nil => rfl
  | cons u rest ih => simp [computeOffsets, ih]

/-- The length of the k-th entry is the count of the k-th nontrivial unknown. -/
theorem computeOffsets_len_eq (l : List UnknownQuantity) (off : Nat) (k : Nat)
    (hk : k < (computeOffsets l off).length) :
    ((computeOffsets l off).get ⟨k, hk⟩).len
      = (l.get ⟨k, by rw [← computeOffsets_length l off]; exact hk⟩).numElements := by
  induction l generalizing off k with
  | nil => simp [computeOffsets] at hk
  | cons u rest ih =>
    cases k with
    | zero => simp [computeOffsets]
    | succ k =>
      have hk2 : k < (computeOffsets rest (off + u.numElements)).length := by
        simpa [computeOffsets] using hk
      simpa [computeOffsets, List.get] using ih (off + u.numElements) k hk2

/-- Sum of a take grows monotonically with the number of elements
taken, over natural-number summands. -/
theorem sum_take_mono (l : List Nat) (i j : Nat) (hij : i ≤ j) :
    (l.take i).sum ≤ (l.take j).sum := by
  induction l generalizing i j with
  | nil => simp
  | cons n rest ih =>
    cases i with
    | zero => simp
    | succ i =>
      cases j with
      | zero => omega
      | succ j =>
        have := ih i j (Nat.succ_le_succ_iff.mp hij)
        simpa [List.take, Nat.add_le_add_iff_left] using this

/-- The block at index k of the lookup table (out-of-range reads give
the zero-width block, never used under the index bounds below). -/
def blockAt (us : List UnknownQuantity) (k : Nat) : BlockRange :=
  (unknownToMatrixMapping us).getD k ⟨0, 0, 0⟩

/-- The k-th nontrivial unknown in registration order (out-of-range
reads give a zero-size placeholder, never used under the index bounds
below). -/
def nontrivialAt (us : List UnknownQuantity) (k : Nat) : UnknownQuantity :=
  (nontrivialUnknowns us).getD k ⟨0, 0, false⟩

/-- The id recorded at index k is the id of the k-th unknown. -/
theorem computeOffsets_id_eq (l : List UnknownQuantity) (off : Nat) (k : Nat)
    (hk : k < (computeOffsets l off).length) :
    ((computeOffsets l off).get ⟨k, hk⟩).uqtyId
      = (l.get ⟨k, by rw [← computeOffsets_length l off]; exact hk⟩).id := by
  induction l generalizing off k with
  | nil => simp [computeOffsets] at hk
  | cons u rest ih =>
    cases k with
    | zero => simp [computeOffsets]
    | succ k =>
      have hk2 : k < (computeOffsets rest (off + u.numElements)).length := by
        simpa [computeOffsets] using hk
      simpa [computeOffsets, List.get] using ih (off + u.numElements) k hk2

/-- The lookup table has one entry per nontrivial unknown. -/
theorem unknownToMatrixMapping_length (us : List UnknownQuantity) :
    (unknownToMatrixMapping us).length = (nontrivialUnknowns us).length := by
  simpa [unknownToMatrixMapping] using computeOffsets_length (nontrivialUnknowns us) 0

/-- In range, blockAt is the k-th entry of the lookup table. -/
theorem blockAt_eq_get (us : List UnknownQuantity) (k : Nat)
    (hk : k < (unknownToMatrixMapping us).length) :
    blockAt us k = (unknownToMatrixMapping us).get ⟨k, hk⟩ := by
  simp [blockAt, List.getD_eq_getElem?_getD, List.getElem?_eq_getElem hk]

/-- In range, nontrivialAt is the k-th nontrivial unknown. -/
theorem nontrivialAt_eq_get (us : List UnknownQuantity) (k : Nat)
    (hk : k < (nontrivialUnknowns us).length) :
    nontrivialAt us k = (nontrivialUnknowns us).get ⟨k, hk⟩ := by
  simp [nontrivialAt, List.getD_eq_getElem?_getD, List.getElem?_eq_getElem hk]

/-- The offset of block k is the prefix sum of the preceding
degree-of-freedom counts. -/
theorem blockAt_offset_eq (us : List UnknownQuantity) (k : Nat)
    (hk : k < (unknownToMatrixMapping us).length) :
    (blockAt us k).offset
      = (((nontrivialUnknowns us).take k).map (fun u => u.numElements)).sum := by
  rw [blockAt_eq_get us k hk]
  simpa [unknownToMatrixMapping] using
    computeOffsets_offset_eq (nontrivialUnknowns us) 0 k
      (by simpa [unknownToMatrixMapping] using hk)

/-- The length of block k is the degree-of-freedom count of the k-th
nontrivial unknown. -/
theorem blockAt_len_eq (us : List UnknownQuantity) (k : Nat)
    (hk : k < (unknownToMatrixMapping us).length) :
    (blockAt us k).len = (nontrivialAt us k).numElements := by
  have hkL : k < (nontrivialUnknowns us).length := by
    rw [← unknownToMatrixMapping_length us]; exact hk
  rw [blockAt_eq_get us k hk, nontrivialAt_eq_get us k hkL]
  exact computeOffsets_len_eq (nontrivialUnknowns us) 0 k
    (by simpa [unknownToMatrixMapping] using hk)

/-- The block at index k carries the id of the k-th nontrivial
unknown. -/
theorem blockAt_id_eq (us : List UnknownQuantity) (k : Nat)
    (hk : k < (unknownToMatrixMapping us).length) :
    (blockAt us k).uqtyId = (nontrivialAt us k).id := by
  have hkL : k < (nontrivialUnknowns us).length := by
    rw [← unknownToMatrixMapping_length us]; exact hk
  rw [blockAt_eq_get us k hk, nontrivialAt_eq_get us k hkL]
  exact computeOffsets_id_eq (nontrivialUnknowns us) 0 k
    (by simpa [unknownToMatrixMapping] using hk)

/-- C1: for every set of registered unknowns (including registries
with zero or one nontrivial unknown), the layout computed at solver
initialization has one block per nontrivial unknown, in registration
order with trivial unknowns skipped, and the block lengths sum exactly
to matrix_size; every block k carries the id and degree-of-freedom
count of the k-th nontrivial unknown and an offset equal to the prefix
sum of the preceding nontrivial degree-of-freedom counts — so every
block (the last one included) lies inside [0, matrix_size), block k+1
starts exactly where block k ends (contiguous), and any earlier block
ends at or before a later block starts (non-overlapping). -/
theorem C1_block_layout_prefix_sum (us : List UnknownQuantity) :
    (unknownToMatrixMapping us).length = (nontrivialUnknowns us).length
      ∧ ((unknownToMatrixMapping us).map (fun b => b.len)).sum = matrix_size us
      ∧ ∀ k : Nat, k < (unknownToMatrixMapping us).length →
          (blockAt us k).uqtyId = (nontrivialAt us k).id
          ∧ (blockAt us k).len = (nontrivialAt us k).numElements
          ∧ (blockAt us k).offset
              = (((nontrivialUnknowns us).take k).map (fun u => u.numElements)).sum
          ∧ (blockAt us k).offset + (blockAt us k).len ≤ matrix_size us
          ∧ (k + 1 < (unknownToMatrixMapping us).length →
              (blockAt us (k + 1)).offset
                = (blockAt us k).offset + (blockAt us k).len)
          ∧ (∀ j : Nat, j < (unknownToMatrixMapping us).length → k < j →
              (blockAt us k).offset + (blockAt us k).len ≤ (blockAt us j).offset) := by
  refine ⟨unknownToMatrixMapping_length us, ?_, ?_⟩
  · simp [unknownToMatrixMapping, computeOffsets_len_map, matrix_size]
  · intro k hk
    -- block i ends at the sum of the first (i+1) degree-of-freedom counts
    have hstep : ∀ (i : Nat), i < (unknownToMatrixMapping us).length →
        (blockAt us i).offset + (blockAt us i).len
          = (((nontrivialUnknowns us).map (fun u => u.numElements)).take (i + 1)).sum := by
      intro i hi
      have hiM : i < ((nontrivialUnknowns us).map (fun u => u.numElements)).length := by
        rw [List.length_map, ← unknownToMatrixMapping_length us]; exact hi
      have hiL : i < (nontrivialUnknowns us).length := by
        rw [← unknownToMatrixMapping_length us]; exact hi
      rw [blockAt_offset_eq us i hi, blockAt_len_eq us i hi,
        List.sum_take_succ _ i hiM, List.map_take, nontrivialAt_eq_get us i hiL]
      congr 1
      simp
    refine ⟨blockAt_id_eq us k hk, blockAt_len_eq us k hk, blockAt_offset_eq us k hk,
      ?_, ?_, ?_⟩
    · -- block k lies inside [0, matrix_size)
      have hms : matrix_size us
          = ((nontrivialUnknowns us).map (fun u => u.numElements)).sum := rfl
      have hkM : k + 1 ≤ ((nontrivialUnknowns us).map (fun u => u.numElements)).length := by
        rw [List.length_map, ← unknownToMatrixMapping_length us]; exact hk
      have hmono := sum_take_mono ((nontrivialUnknowns us).map (fun u => u.numElements))
        (k + 1) ((nontrivialUnknowns us).map (fun u => u.numElements)).length hkM
      rw [List.take_length] at hmono
      rw [hstep k hk, hms]
      exact hmono
    · -- contiguity: block k+1 starts exactly where block k ends
      intro hk1
      rw [hstep k hk, blockAt_offset_eq us (k + 1) hk1, List.map_take]
    · -- non-overlap: block k ends at or before any later block begins
      intro j hj hkj
      rw [hstep k hk, blockAt_offset_eq us j hj, List.map_take]
      exact sum_take_mono _ (k + 1) j hkj

/-- Witness for C1 at a concrete registry: three unknowns of which the
middle one is trivial; the two nontrivial blocks are (offset 0, len 3)
and (offset 3, len 4) for unknown ids 0 and 2, with matrix_size 7; the
inner index hypotheses are discharged at k = 0, 1 and j = 1, covering
the last block as well. -/
theorem C1_block_layout_prefix_sum_witness :
    (blockAt [⟨0, 3, false⟩, ⟨1, 2, true⟩, ⟨2, 4, false⟩] 1).offset
        = (((nontrivialUnknowns [⟨0, 3, false⟩, ⟨1, 2, true⟩, ⟨2, 4, false⟩]).take 1).map
            (fun u => u.numElements)).sum
      ∧ (blockAt [⟨0, 3, false⟩, ⟨1, 2, true⟩, ⟨2, 4, false⟩] 1).uqtyId
        = (nontrivialAt [⟨0, 3, false⟩, ⟨1, 2, true⟩, ⟨2, 4, false⟩] 1).id
      ∧ (blockAt [⟨0, 3, false⟩, ⟨1, 2, true⟩, ⟨2, 4, false⟩] 1).len
        = (nontrivialAt [⟨0, 3, false⟩, ⟨1, 2, true⟩, ⟨2, 4, false⟩] 1).numElements
      ∧ (blockAt [⟨0, 3, false⟩, ⟨1, 2, true⟩, ⟨2, 4, false⟩] 1).offset
        = (blockAt [⟨0, 3, false⟩, ⟨1, 2, true⟩, ⟨2, 4, false⟩] 0).offset
          + (blockAt [⟨0, 3, false⟩, ⟨1, 2, true⟩, ⟨2, 4, false⟩] 0).len
      ∧ (blockAt [⟨0, 3, false⟩, ⟨1, 2, true⟩, ⟨2, 4, false⟩] 0).offset
          + (blockAt [⟨0, 3, false⟩, ⟨1, 2, true⟩, ⟨2, 4, false⟩] 0).len
        ≤ (blockAt [⟨0, 3, false⟩, ⟨1, 2, true⟩, ⟨2, 4, false⟩] 1).offset
      ∧ ((unknownToMatrixMapping [⟨0, 3, false⟩, ⟨1, 2, true⟩, ⟨2, 4, false⟩]).map
          (fun b => b.len)).sum
        = matrix_size [⟨0, 3, false⟩, ⟨1, 2, true⟩, ⟨2, 4, false⟩] :=
  ⟨((C1_block_layout_prefix_sum
      [⟨0, 3, false⟩, ⟨1, 2, true⟩, ⟨2, 4, false⟩]).2.2 1 (by decide)).2.2.1,
    ((C1_block_layout_prefix_sum
      [⟨0, 3, false⟩, ⟨1, 2, true⟩, ⟨2, 4, false⟩]).2.2 1 (by decide)).1,
    ((C1_block_layout_prefix_sum
      [⟨0, 3, false⟩, ⟨1, 2, true⟩, ⟨2, 4, false⟩]).2.2 1 (by decide)).2.1,
    ((C1_block_layout_prefix_sum
      [⟨0, 3, false⟩, ⟨1, 2, true⟩, ⟨2, 4, false⟩]).2.2 0 (by decide)).2.2.2.2.1 (by decide),
    ((C1_block_layout_prefix_sum
      [⟨0, 3, false⟩, ⟨1, 2, true⟩, ⟨2, 4, false⟩]).2.2 0 (by decide)).2.2.2.2.2 1
        (by decide) (by decide),
    (C1_block_layout_prefix_sum
      [⟨0, 3, false⟩, ⟨1, 2, true⟩, ⟨2, 4, false⟩]).2.1⟩

/-! ## Unknown-quantity registry: double buffers, commit, rollback

UnknownQuantityHandler.cpp is not in src/; the registry semantics are
modelled from the spec: every unknown owns two buffers (current and
previous-accepted); during a step attempt the current buffer is
overwritten in place; on acceptance current is copied into previous;
on rejection current is discarded and restored from previous. -/

/-- Double-buffered storage of one unknown quantity. -/
structure QuantityData where
  current : List ℚ
  previous : List ℚ
deriving DecidableEq, Repr

/-- The registry maps unknown ids to their double-buffered data. -/
def Registry : Type := Nat → QuantityData

/-- Modelled from the spec: rollback restores current from previous,
called only on step rejection. -/
def rollbackOne (q : QuantityData) : QuantityData :=
  { q with current := q.previous }

/-- Modelled from the spec: commit copies current into previous,
called only on step acceptance. -/
def commitOne (q : QuantityData) : QuantityData :=
  { q with previous := q.current }

/-- Registry-wide rollback: restore every current buffer from its
previous-accepted buffer. -/
def Registry.rollback (reg : Registry) : Registry :=
  fun uqtyId => rollbackOne (reg uqtyId)

/-- Registry-wide commit: copy every current buffer into its
previous-accepted buffer. -/
def Registry.commit (reg : Registry) : Registry :=
  fun uqtyId => commitOne (reg uqtyId)

/-- Modelled from the spec: a single in-place write to one unknown
current buffer of one quantity, as performed during a Newton iteration of a
step attempt.  The previous-accepted buffer is never written during an
attempt. -/
def applyWrite (reg : Registry) (w : Nat × List ℚ) : Registry :=
  fun uqtyId => if uqtyId = w.1 then { reg uqtyId with current := w.2 } else reg uqtyId

/-- A step attempt, modelled as the sequence of current-buffer writes
its Newton iterations perform. -/
def stepAttempt (reg : Registry) (writes : List (Nat × List ℚ)) : Registry :=
  writes.foldl applyWrite reg

/-- Step attempts never touch the previous-accepted buffers. -/
theorem stepAttempt_previous (reg : Registry) (writes : List (Nat × List ℚ)) (uqtyId : Nat) :
    (stepAttempt reg writes uqtyId).previous = (reg uqtyId).previous := by
  induction writes generalizing reg with
  | nil => rfl
  | cons w ws ih =>
    have := ih (applyWrite reg w)
    simp only [stepAttempt, List.foldl] at this ⊢
    rw [this]
    by_cases h : uqtyId = w.1 <;> simp [applyWrite, h]

/-- C2: rollback is atomic: for every rejected step attempt (an
arbitrary sequence of current-buffer writes) and every unknown, after
registry rollback the previous-accepted buffer is element-wise
identical to its value immediately before the attempt began, and the
current buffer is restored from it, so no mutation made during the
rejected attempt survives. -/
theorem C2_rollback_atomic (reg : Registry) (writes : List (Nat × List ℚ)) (uqtyId : Nat) :
    ((stepAttempt reg writes).rollback uqtyId).previous = (reg uqtyId).previous
      ∧ ((stepAttempt reg writes).rollback uqtyId).current = (reg uqtyId).previous := by
  constructor
  · simpa [Registry.rollback, rollbackOne] using stepAttempt_previous reg writes uqtyId
  · simpa [Registry.rollback, rollbackOne] using stepAttempt_previous reg writes uqtyId

/-! ## DiagonalTerm: weight cache rebuild rules

DiagonalTerm.hpp declares `hasBeenInitialized`, the weight cache
`weights`, and the pure virtual `TermDependsOnUnknowns` which
"determines whether weights should be set at every Rebuild or just on
GridRebuilt".  DiagonalTerm.cpp is not in src/, so Rebuild/GridRebuilt
are modelled from the spec: a geometry-only term skips weight
recomputation on Rebuild calls not preceded by a grid change
(recomputing only on GridRebuilt or first initialization); an
unknown-dependent term recomputes on every Rebuild call. -/

/-- Grid state visible to a term (cell-wise geometric data). -/
structure GridState where
  cells : List ℚ
deriving DecidableEq, Repr

/-- The statically declared part of a concrete DiagonalTerm subclass:
its TermDependsOnUnknowns answer and its SetWeights rule, a pure
function of (grid state, registry state) per the spec. -/
structure DiagonalTermSpec where
  termDependsOnUnknowns : Bool
  setWeights : GridState → Registry → List ℚ

/-- The mutable state of a DiagonalTerm: the initialization flag and
the weight cache. -/
structure DiagonalTermState where
  hasBeenInitialized : Bool
  weights : List ℚ

/-- Modelled from the spec: DiagonalTerm::Rebuild(t, dt, unknowns).
An unknown-dependent term recomputes its weights on every call; a
geometry-only term computes them only on first initialization and
otherwise leaves the cache untouched. -/
def DiagonalTerm.Rebuild (c : DiagonalTermSpec) (g : GridState) (t dt : ℚ)
    (u : Registry) (s : DiagonalTermState) : DiagonalTermState :=
  if c.termDependsOnUnknowns then
    { hasBeenInitialized := true, weights := c.setWeights g u }
  else if s.hasBeenInitialized then s
  else { hasBeenInitialized := true, weights := c.setWeights g u }

/-- Modelled from the spec: DiagonalTerm::GridRebuilt reallocates the
cache and recomputes geometry-only weights against the new grid; for
an unknown-dependent term the cache is invalidated and refreshed by
the next Rebuild.  Returns whether anything changed. -/
def DiagonalTerm.GridRebuilt (c : DiagonalTermSpec) (g : GridState)
    (u : Registry) (s : DiagonalTermState) : DiagonalTermState × Bool :=
  if c.termDependsOnUnknowns then
    ({ hasBeenInitialized := false, weights := s.weights }, true)
  else
    ({ hasBeenInitialized := true, weights := c.setWeights g u }, true)

/-- C3: a term declaring geometry-only weight dependence
(TermDependsOnUnknowns false) keeps its weight cache unchanged across
a Rebuild call that is not preceded by a grid change (cache already
initialized); its weights are recomputed only on first initialization
or on GridRebuilt.  A term declaring unknown-dependent weights
(TermDependsOnUnknowns true) recomputes its weights on every Rebuild
call. -/
theorem C3_weight_recompute_policy (c : DiagonalTermSpec) (g : GridState)
    (t dt : ℚ) (u : Registry) (s : DiagonalTermState) :
    (c.termDependsOnUnknowns = false → s.hasBeenInitialized = true →
        (DiagonalTerm.Rebuild c g t dt u s).weights = s.weights)
      ∧ (c.termDependsOnUnknowns = true →
        (DiagonalTerm.Rebuild c g t dt u s).weights = c.setWeights g u)
      ∧ (c.termDependsOnUnknowns = false → s.hasBeenInitialized = false →
        (DiagonalTerm.Rebuild c g t dt u s).weights = c.setWeights g u)
      ∧ (c.termDependsOnUnknowns = false →
        ((DiagonalTerm.GridRebuilt c g u s).1).weights = c.setWeights g u) := by
  refine ⟨?_, ?_, ?_, ?_⟩ <;> intro h1
  · intro h2; simp [DiagonalTerm.Rebuild, h1, h2]
  · simp [DiagonalTerm.Rebuild, h1]
  · intro h2; simp [DiagonalTerm.Rebuild, h1, h2]
  · simp [DiagonalTerm.GridRebuilt, h1]

/-- Witness for C3: a geometry-only term with an initialized cache
keeps it across Rebuild, and an unknown-dependent term recomputes. -/
theorem C3_weight_recompute_policy_witness :
    (DiagonalTerm.Rebuild ⟨false, fun g _ => g.cells⟩ ⟨[2, 3]⟩ 0 1
        (fun _ => ⟨[], []⟩) ⟨true, [7]⟩).weights = [7]
      ∧ (DiagonalTerm.Rebuild ⟨true, fun g _ => g.cells⟩ ⟨[2, 3]⟩ 0 1
        (fun _ => ⟨[], []⟩) ⟨true, [7]⟩).weights
          = DiagonalTermSpec.setWeights ⟨true, fun g _ => g.cells⟩ ⟨[2, 3]⟩ (fun _ => ⟨[], []⟩) :=
  ⟨(C3_weight_recompute_policy ⟨false, fun g _ => g.cells⟩ ⟨[2, 3]⟩ 0 1
      (fun _ => ⟨[], []⟩) ⟨true, [7]⟩).1 rfl rfl,
    (C3_weight_recompute_policy ⟨true, fun g _ => g.cells⟩ ⟨[2, 3]⟩ 0 1
      (fun _ => ⟨[], []⟩) ⟨true, [7]⟩).2.1 rfl⟩

/-- Modelled from the spec: the residual contribution of a diagonal
term, vec[i] += weights[i] * x[i] on its target grid. -/
def DiagonalTerm.SetVectorElements (w : List ℚ) (vec x : List ℚ) : List ℚ :=
  List.zipWith (fun vi wx => vi + wx) vec (List.zipWith (fun wi xi => wi * xi) w x)

/-- Modelled from the spec: the Jacobian-block contribution of a
diagonal term, jac[i][i] += weights[i] (represented by its diagonal). -/
def DiagonalTerm.AddWeightsJacobian (w : List ℚ) (jacDiag : List ℚ) : List ℚ :=
  List.zipWith (fun ji wi => ji + wi) jacDiag w

/-- C4: Rebuild is deterministic and idempotent: calling Rebuild twice
with the same (t, dt), grid and registry state produces identical
weight caches after each call (indeed the second call leaves the state
fixed), hence identical residual and Jacobian output when the term is
subsequently assembled. -/
theorem C4_rebuild_idempotent (c : DiagonalTermSpec) (g : GridState)
    (t dt : ℚ) (u : Registry) (s : DiagonalTermState) (vec x jacDiag : List ℚ) :
    DiagonalTerm.Rebuild c g t dt u (DiagonalTerm.Rebuild c g t dt u s)
        = DiagonalTerm.Rebuild c g t dt u s
      ∧ (DiagonalTerm.Rebuild c g t dt u (DiagonalTerm.Rebuild c g t dt u s)).weights
        = (DiagonalTerm.Rebuild c g t dt u s).weights
      ∧ DiagonalTerm.SetVectorElements
          (DiagonalTerm.Rebuild c g t dt u (DiagonalTerm.Rebuild c g t dt u s)).weights vec x
        = DiagonalTerm.SetVectorElements
          (DiagonalTerm.Rebuild c g t dt u s).weights vec x
      ∧ DiagonalTerm.AddWeightsJacobian
          (DiagonalTerm.Rebuild c g t dt u (DiagonalTerm.Rebuild c g t dt u s)).weights jacDiag
        = DiagonalTerm.AddWeightsJacobian
          (DiagonalTerm.Rebuild c g t dt u s).weights jacDiag := by
  have hfix : DiagonalTerm.Rebuild c g t dt u (DiagonalTerm.Rebuild c g t dt u s)
      = DiagonalTerm.Rebuild c g t dt u s := by
    by_cases hdep : c.termDependsOnUnknowns
    · simp [DiagonalTerm.Rebuild, hdep]
    · by_cases hinit : s.hasBeenInitialized <;> simp [DiagonalTerm.Rebuild, hdep, hinit]
  exact ⟨hfix, by rw [hfix], by rw [hfix], by rw [hfix]⟩

/-! ## Solver: Newton iteration

Solver.hpp declares BuildJacobian / BuildVector / Solve; the Newton
loop body is not in src/, so one iteration is modelled from the spec:
assemble residual F(x) and Jacobian J(x), solve J·delta = -F, update
x += delta. -/

/-- Modelled from the spec: one Newton iteration on a single scalar
unknown: solve J(x)·delta = -F(x) and update x += delta. -/
def newtonStep (F J : ℚ → ℚ) (x : ℚ) : ℚ :=
  x + (-(F x)) / J x

/-- The manufactured single-unknown system A = 5: residual A - 5.
The residual builder receives (t, dt) like BuildVector but the term
does not depend on them. -/
def residual_A5 (t dt A : ℚ) : ℚ := A - 5

/-- The Jacobian block of the manufactured system: the identity, 1. -/
def jacobian_A5 (t dt A : ℚ) : ℚ := 1

/-- C5: for the manufactured single-unknown system with identity
Jacobian block 1 and residual A - 5, one Newton iteration reaches
A = 5 exactly, for every initial guess and every (t, dt); the residual
vanishes there, and from any initial guess other than 5 the residual
is nonzero, so zero iterations do not suffice: convergence takes
exactly one iteration. -/
theorem C5_newton_one_iteration (t dt A0 : ℚ) :
    newtonStep (residual_A5 t dt) (jacobian_A5 t dt) A0 = 5
      ∧ residual_A5 t dt (newtonStep (residual_A5 t dt) (jacobian_A5 t dt) A0) = 0
      ∧ (A0 ≠ 5 → residual_A5 t dt A0 ≠ 0) := by
  refine ⟨?_, ?_, ?_⟩
  · simp [newtonStep, residual_A5, jacobian_A5]
  · simp [newtonStep, residual_A5, jacobian_A5]
  · intro h5 h0
    exact h5 (by linarith [sub_eq_zero.mp h0])

/-- Witness for C5 at t = 0, dt = 1, initial guess 17. -/
theorem C5_newton_one_iteration_witness :
    newtonStep (residual_A5 0 1) (jacobian_A5 0 1) 17 = 5
      ∧ residual_A5 0 1 17 ≠ 0 :=
  ⟨(C5_newton_one_iteration 0 1 17).1,
    (C5_newton_one_iteration 0 1 17).2.2 (by norm_num)⟩

/-! ## Adaptive time stepper: reject, shrink, retry

ConstructTimeStepper_adaptive (TimeStepper.cpp) builds the stepper
from (tmax, dt, checkevery, ConvergenceChecker); the retry loop itself
lives in TimeStepperAdaptive.cpp, which is not in src/, so it is
modelled from the spec: on a failed step-quality check the stepper
rejects the step, shrinks dt by its configured factor and retries, up
to a configured retry cap, after which the step is fatal. -/

/-- Modelled from the spec: the retry loop for one time step.  `check`
is the step-quality verdict at a given dt (convergence checker plus
Newton outcome); `fuel` is the number of retries still allowed.  On
failure with no retries left the step is fatal (`none`); otherwise dt
is shrunk by the configured factor and the step retried. -/
def runStep (shrink : ℚ) (check : ℚ → Bool) : Nat → ℚ → Option ℚ
  | 0, dt => if check dt then some dt else none
  | fuel + 1, dt => if check dt then some dt else runStep shrink check fuel (shrink * dt)

/-- The number of retries actually performed for one step, given the
retry allowance `fuel`. -/
def numRetries (shrink : ℚ) (check : ℚ → Bool) : Nat → ℚ → Nat
  | 0, _ => 0
  | fuel + 1, dt => if check dt then 0 else 1 + numRetries shrink check fuel (shrink * dt)

/-- Retries performed never exceed the allowance. -/
theorem numRetries_le (shrink : ℚ) (check : ℚ → Bool) (fuel : Nat) (dt : ℚ) :
    numRetries shrink check fuel dt ≤ fuel := by
  induction fuel generalizing dt with
  | zero => simp [numRetries]
  | succ n ih =>
    by_cases h : check dt
    · simp [numRetries, h]
    · have hf : check dt = false := Bool.eq_false_iff.mpr h
      have := ih (shrink * dt)
      simp only [numRetries, hf, Bool.false_eq_true, if_false]
      omega

/-- The step is fatal exactly when the quality check fails at every dt
in the shrink sequence, through the whole retry allowance. -/
theorem runStep_fatal_iff (shrink : ℚ) (check : ℚ → Bool) (fuel : Nat) (dt : ℚ) :
    runStep shrink check fuel dt = none
      ↔ (∀ k : Nat, k ≤ fuel → check (shrink ^ k * dt) = false) := by
  induction fuel generalizing dt with
  | zero =>
    constructor
    · intro h k hk
      interval_cases k
      by_cases hc : check dt
      · simp [runStep, hc] at h
      · simpa [pow_zero, one_mul] using Bool.eq_false_iff.mpr hc
    · intro h
      have h0 := h 0 (le_refl 0)
      rw [pow_zero, one_mul] at h0
      simp [runStep, h0]
  | succ n ih =>
    by_cases hc : check dt
    · have hstep : runStep shrink check (n + 1) dt = some dt := by
        simp [runStep, hc]
      rw [hstep]
      constructor
      · intro h; exact absurd h (by simp)
      · intro h
        have h0 := h 0 (Nat.zero_le _)
        rw [pow_zero, one_mul] at h0
        rw [h0] at hc
        exact absurd hc (by simp)
    · have hstep : runStep shrink check (n + 1) dt
          = runStep shrink check n (shrink * dt) := by
        simp [runStep, Bool.eq_false_iff.mpr hc]
      rw [hstep, ih (shrink * dt)]
      constructor
      · intro h k hk
        cases k with
        | zero => simpa [pow_zero, one_mul] using Bool.eq_false_iff.mpr hc
        | succ k =>
          have := h k (Nat.succ_le_succ_iff.mp hk)
          calc check (shrink ^ (k + 1) * dt)
              = check (shrink ^ k * (shrink * dt)) := by ring_nf
            _ = false := this
      · intro h k hk
        have := h (k + 1) (Nat.succ_le_succ hk)
        calc check (shrink ^ k * (shrink * dt))
            = check (shrink ^ (k + 1) * dt) := by ring_nf
          _ = false := this

/-- C6: whenever the step-quality check fails at the current dt, the
adaptive stepper rejects the step, shrinks dt by its configured factor
and retries (the run with allowance cap+1 continues as the run with
allowance cap at the shrunk dt); the number of retries for one step
never exceeds the configured retry cap; and the step is declared fatal
exactly when the check fails at the whole shrink sequence up to the
cap. -/
theorem C6_adaptive_retry (shrink : ℚ) (check : ℚ → Bool) (cap : Nat) (dt : ℚ)
    (hfail : check dt = false) :
    numRetries shrink check cap dt ≤ cap
      ∧ runStep shrink check (cap + 1) dt = runStep shrink check cap (shrink * dt)
      ∧ (runStep shrink check cap dt = none
          ↔ (∀ k : Nat, k ≤ cap → check (shrink ^ k * dt) = false)) :=
  ⟨numRetries_le shrink check cap dt,
    by simp [runStep, hfail],
    runStep_fatal_iff shrink check cap dt⟩

/-- Witness for C6: shrink factor 1/2, retry cap 2, initial dt = 1,
with a quality check that only passes below 1/4. -/
theorem C6_adaptive_retry_witness :
    (fun d : ℚ => decide (d < 1/4)) 1 = false
      ∧ (numRetries (1/2) (fun d : ℚ => decide (d < 1/4)) 2 1 ≤ 2
        ∧ runStep (1/2) (fun d : ℚ => decide (d < 1/4)) 3 1
            = runStep (1/2) (fun d : ℚ => decide (d < 1/4)) 2 (1/2 * 1)
        ∧ (runStep (1/2) (fun d : ℚ => decide (d < 1/4)) 2 1 = none
            ↔ (∀ k : Nat, k ≤ 2 →
                decide ((1/2 : ℚ) ^ k * 1 < 1/4) = false))) :=
  ⟨by norm_num, C6_adaptive_retry (1/2) (fun d : ℚ => decide (d < 1/4)) 2 1 (by norm_num)⟩

/-! ## Ionization-driven time stepper: dt upper bounds

ConstructTimeStepper_ionization (TimeStepper.cpp) passes (tmax, dt,
dtmax, automaticstep, safetyfactor) to TimeStepperIonization, whose
implementation is not in src/; the proposal rule is modelled from the
spec: the stepper behaves as Adaptive but additionally bounds dt above
by dtmax and by a characteristic timescale computed from the current
plasma state divided by the safety factor. -/

/-- Modelled from the spec: the dt proposed by the ionization-driven
stepper for the current plasma state: the adaptive proposal, clamped
above by dtmax and by (characteristic timescale)/safetyfactor, where
`charTime` computes the automatic-step characteristic timescale of the
plasma state held in the registry. -/
def ionizationProposeDt (charTime : Registry → ℚ) (dtmax safetyfactor : ℚ)
    (dtAdaptive : ℚ) (state : Registry) : ℚ :=
  min (min dtAdaptive dtmax) (charTime state / safetyfactor)

/-- C7: for every state the ionization-driven stepper reaches, the dt
it proposes is at most dtmax and at most the characteristic timescale
of the current plasma state divided by the configured safety factor. -/
theorem C7_ionization_dt_bounds (charTime : Registry → ℚ) (dtmax safetyfactor : ℚ)
    (dtAdaptive : ℚ) (state : Registry) :
    ionizationProposeDt charTime dtmax safetyfactor dtAdaptive state ≤ dtmax
      ∧ ionizationProposeDt charTime dtmax safetyfactor dtAdaptive state
        ≤ charTime state / safetyfactor :=
  ⟨le_trans (min_le_left _ _) (min_le_right _ _), min_le_right _ _⟩

/-! ## Settings: constructing the Constant time stepper

Embedded from src/src/Settings/TimeStepper.cpp,
SimulationGenerator::ConstructTimeStepper_constant.  A thrown
SettingsException is embedded as Except.error carrying the message. -/

/-- The constructed TimeStepperConstant object.  Its .cpp is not in
src/: the derived dt in fromNt is modelled from the spec (fixed step
count deriving dt = tmax/nt). -/
structure TimeStepperConstant where
  tmax : ℚ
  dt : ℚ
  nSaveSteps : Int
deriving DecidableEq, Repr

/-- The TimeStepperConstant(tmax, dt, u, nSaveSteps) constructor:
fixed dt given directly. -/
def TimeStepperConstant.fromDt (tmax dt : ℚ) (nSaveSteps : Int) : TimeStepperConstant :=
  ⟨tmax, dt, nSaveSteps⟩

/-- Modelled from the spec: the TimeStepperConstant(tmax, nt, u,
nSaveSteps) constructor derives dt = tmax/nt from the fixed step
count. -/
def TimeStepperConstant.fromNt (tmax : ℚ) (nt : Nat) (nSaveSteps : Int) : TimeStepperConstant :=
  ⟨tmax, tmax / (nt : ℚ), nSaveSteps⟩

/-- Error raised when both dt and nt are set. -/
def ambiguousTimeStepMsg : String :=
  "TimeStepper constant: Ambiguous time step specified. Only one of dt and nt may be set for the time stepper."

/-- Error raised when neither dt nor nt is set. -/
def noTimeStepMsg : String :=
  "TimeStepper constant: No time step specified. Exactly one of dt and nt must be set for the time stepper."

/-- Embedded from TimeStepper.cpp: ConstructTimeStepper_constant reads
tmax, dt, nt and nSaveSteps from the settings; dtset = (dt > 0),
ntset = (nt > 0); both set is ambiguous, neither set is missing;
otherwise the object is built from dt, or from nt (cast to len_t). -/
def ConstructTimeStepper_constant (tmax dt : ℚ) (nt : Int) (nSaveSteps : Int) :
    Except String TimeStepperConstant :=
  let dtset : Bool := decide (0 < dt)
  let ntset : Bool := decide (0 < nt)
  if dtset && ntset then
    Except.error ambiguousTimeStepMsg
  else if !dtset && !ntset then
    Except.error noTimeStepMsg
  else if dtset then
    Except.ok (TimeStepperConstant.fromDt tmax dt nSaveSteps)
  else
    Except.ok (TimeStepperConstant.fromNt tmax nt.toNat nSaveSteps)

/-- C8: constructing the Constant time stepper succeeds if and only if
exactly one of dt and nt is positive; when both are positive it raises
the ambiguous-specification error, when neither is positive it raises
the missing-specification error (both at setup, before any simulation
time advances); and when nt is used the constructed dt is derived as
tmax/nt. -/
theorem C8_constant_stepper_construction (tmax dt : ℚ) (nt nSaveSteps : Int) :
    ((ConstructTimeStepper_constant tmax dt nt nSaveSteps).isOk = true
        ↔ ((0 < dt ∧ ¬ 0 < nt) ∨ (¬ 0 < dt ∧ 0 < nt)))
      ∧ (0 < dt → 0 < nt →
        ConstructTimeStepper_constant tmax dt nt nSaveSteps
          = Except.error ambiguousTimeStepMsg)
      ∧ (¬ 0 < dt → ¬ 0 < nt →
        ConstructTimeStepper_constant tmax dt nt nSaveSteps
          = Except.error noTimeStepMsg)
      ∧ (¬ 0 < dt → 0 < nt →
        ConstructTimeStepper_constant tmax dt nt nSaveSteps
          = Except.ok ⟨tmax, tmax / (nt.toNat : ℚ), nSaveSteps⟩) := by
  refine ⟨?_, ?_, ?_, ?_⟩
  · by_cases hdt : 0 < dt <;> by_cases hnt : 0 < nt <;>
      simp [ConstructTimeStepper_constant, hdt, hnt, Except.isOk, Except.toBool]
  · intro hdt hnt
    simp [ConstructTimeStepper_constant, hdt, hnt]
  · intro hdt hnt
    simp [ConstructTimeStepper_constant, hdt, hnt]
  · intro hdt hnt
    simp [ConstructTimeStepper_constant, hdt, hnt, TimeStepperConstant.fromNt]

/-- Witness for C8 at tmax = 1, dt = 0, nt = 5: construction succeeds
and derives dt = 1/5; and at dt = 2, nt = 5 it raises the
ambiguous-specification error. -/
theorem C8_constant_stepper_construction_witness :
    ((ConstructTimeStepper_constant 1 0 5 0).isOk = true
        ↔ (((0 : ℚ) < 0 ∧ ¬ (0 : Int) < 5) ∨ (¬ (0 : ℚ) < 0 ∧ (0 : Int) < 5)))
      ∧ ConstructTimeStepper_constant 1 0 5 0
          = Except.ok ⟨1, 1 / ((5 : Int).toNat : ℚ), 0⟩
      ∧ ConstructTimeStepper_constant 1 2 5 0 = Except.error ambiguousTimeStepMsg :=
  ⟨(C8_constant_stepper_construction 1 0 5 0).1,
    (C8_constant_stepper_construction 1 0 5 0).2.2.2 (by norm_num) (by norm_num),
    (C8_constant_stepper_construction 1 2 5 0).2.1 (by norm_num) (by norm_num)⟩

/-! ## Settings: unrecognized type selectors

Embedded from src/src/Settings/TimeStepper.cpp
(SimulationGenerator::ConstructTimeStepper) and
src/src/Settings/Equations/T_cold.cpp
(SimulationGenerator::ConstructEquation_T_cold).  The enum values come
from OptionConstants.hpp, which is not in src/; only their mutual
distinctness matters below, and they are modelled as 1, 2, 3 in
declaration order. -/

/-- Selector value for the constant time stepper. -/
def TIMESTEPPER_TYPE_CONSTANT : Int := 1

/-- Selector value for the adaptive time stepper. -/
def TIMESTEPPER_TYPE_ADAPTIVE : Int := 2

/-- Selector value for the ionization-driven time stepper. -/
def TIMESTEPPER_TYPE_IONIZATION : Int := 3

/-- The time stepper object assigned to the equation system by
ConstructTimeStepper, by variant. -/
inductive TimeStepperObj where
  | constant (ts : TimeStepperConstant)
  | adaptive (tmax dt : ℚ) (checkevery : Int) (verbose conststep : Bool)
  | ionization (tmax dt dtmax automaticstep safetyfactor : ℚ)
deriving DecidableEq, Repr

/-- Embedded from TimeStepper.cpp: ConstructTimeStepper_adaptive reads
checkevery, tmax, dt, verbose, constantstep; if dt == 0 it is replaced
by 1. -/
def ConstructTimeStepper_adaptive (tmax dt : ℚ) (checkevery : Int)
    (verbose conststep : Bool) : TimeStepperObj :=
  TimeStepperObj.adaptive tmax (if dt = 0 then 1 else dt) checkevery verbose conststep

/-- Error raised by ConstructTimeStepper_ionization on a negative
initial time step. -/
def negativeIonizationDtMsg : String :=
  "TimeStepper ionization: Initial time step dt0 must be non-negative."

/-- Embedded from TimeStepper.cpp: ConstructTimeStepper_ionization
reads automaticstep, dt, dtmax, safetyfactor, tmax and rejects a
negative dt. -/
def ConstructTimeStepper_ionization (tmax dt dtmax automaticstep safetyfactor : ℚ) :
    Except String TimeStepperObj :=
  if dt < 0 then Except.error negativeIonizationDtMsg
  else Except.ok (TimeStepperObj.ionization tmax dt dtmax automaticstep safetyfactor)

/-- Embedded from TimeStepper.cpp: ConstructTimeStepper switches on
the type selector and dispatches to the variant constructor; any other
value throws a SettingsException naming the offending value. -/
def ConstructTimeStepper (ty : Int) (tmax dt : ℚ) (nt nSaveSteps checkevery : Int)
    (verbose conststep : Bool) (dtmax automaticstep safetyfactor : ℚ) :
    Except String TimeStepperObj :=
  if ty = TIMESTEPPER_TYPE_CONSTANT then
    (ConstructTimeStepper_constant tmax dt nt nSaveSteps).map TimeStepperObj.constant
  else if ty = TIMESTEPPER_TYPE_ADAPTIVE then
    Except.ok (ConstructTimeStepper_adaptive tmax dt checkevery verbose conststep)
  else if ty = TIMESTEPPER_TYPE_IONIZATION then
    ConstructTimeStepper_ionization tmax dt dtmax automaticstep safetyfactor
  else
    Except.error ("Unrecognized time stepper type: " ++ toString ty ++ ".")

/-- Selector value for the prescribed T_cold equation. -/
def UQTY_T_COLD_EQN_PRESCRIBED : Int := 1

/-- Selector value for the self-consistent T_cold equation. -/
def UQTY_T_COLD_SELF_CONSISTENT : Int := 2

/-- The T_cold equation variant constructed. -/
inductive TcoldEquation where
  | prescribed
  | selfconsistent
deriving DecidableEq, Repr

/-- Embedded from T_cold.cpp: ConstructEquation_T_cold switches on the
eqsys/T_cold/type selector; any other value throws a SettingsException
naming the offending value. -/
def ConstructEquation_T_cold (ty : Int) : Except String TcoldEquation :=
  if ty = UQTY_T_COLD_EQN_PRESCRIBED then Except.ok TcoldEquation.prescribed
  else if ty = UQTY_T_COLD_SELF_CONSISTENT then Except.ok TcoldEquation.selfconsistent
  else Except.error ("Unrecognized equation type for T_cold: " ++ toString ty ++ ".")

/-- C9: every type selector value outside the recognized set raises a
fatal configuration error at setup naming the offending value: an
unrecognized time-stepper type in ConstructTimeStepper, and an
unrecognized equation-type selector in ConstructEquation_T_cold. -/
theorem C9_unrecognized_selector (ty tyT : Int) (tmax dt : ℚ)
    (nt nSaveSteps checkevery : Int) (verbose conststep : Bool)
    (dtmax automaticstep safetyfactor : ℚ)
    (h1 : ty ≠ TIMESTEPPER_TYPE_CONSTANT) (h2 : ty ≠ TIMESTEPPER_TYPE_ADAPTIVE)
    (h3 : ty ≠ TIMESTEPPER_TYPE_IONIZATION)
    (h4 : tyT ≠ UQTY_T_COLD_EQN_PRESCRIBED) (h5 : tyT ≠ UQTY_T_COLD_SELF_CONSISTENT) :
    ConstructTimeStepper ty tmax dt nt nSaveSteps checkevery verbose conststep
        dtmax automaticstep safetyfactor
      = Except.error ("Unrecognized time stepper type: " ++ toString ty ++ ".")
      ∧ ConstructEquation_T_cold tyT
        = Except.error ("Unrecognized equation type for T_cold: " ++ toString tyT ++ ".") :=
  ⟨by simp [ConstructTimeStepper, h1, h2, h3],
    by simp [ConstructEquation_T_cold, h4, h5]⟩

/-- Witness for C9 at time-stepper selector 4 and T_cold selector 3. -/
theorem C9_unrecognized_selector_witness :
    ConstructTimeStepper 4 1 1 0 0 0 false false 0 0 50
        = Except.error ("Unrecognized time stepper type: " ++ toString (4 : Int) ++ ".")
      ∧ ConstructEquation_T_cold 3
        = Except.error ("Unrecognized equation type for T_cold: " ++ toString (3 : Int) ++ ".") :=
  C9_unrecognized_selector 4 3 1 1 0 0 0 false false 0 0 50
    (by decide) (by decide) (by decide) (by decide) (by decide)

/-! ## ScalarLinearTerm: Evaluate leaves the vector untouched

ScalarLinearTerm.cpp is not in src/; ScalarLinearTerm.hpp documents
Evaluate: "we never actually want to assign anything to the vector
when evaluating this term (this term indicates that we want to
evaluate EVERYTHING ELSE in the equation)". -/

/-- Modelled from the spec: ScalarLinearTerm::Evaluate(vec, x, eqnId,
uqtyId) assigns nothing to the vector and hands it back unchanged. -/
def ScalarLinearTerm.Evaluate (vec x : List ℚ) (eqnId uqtyId : Nat) : List ℚ :=
  vec

/-- C10: ScalarLinearTerm::Evaluate leaves its output vector unchanged
for every input: the vector contents after Evaluate equal the contents
before. -/
theorem C10_scalar_linear_evaluate_frame (vec x : List ℚ) (eqnId uqtyId : Nat) :
    ScalarLinearTerm.Evaluate vec x eqnId uqtyId = vec :=
  rfl

end DREAM
